import Mathlib

/-!
Shallow embedding of the harmony command/interaction core.

Sources embedded:
- `src/unnamed/part_000` — the `Interaction` class (`option`, `respond`,
  `acknowledge`, `reply`, `send`, …).
- `src/src/models/commandClient.ts` — `CommandClient.processMessage`, the
  message-dispatch pipeline (blacklists, prefix resolution, whitelists,
  scope flags, permission checks, argument arity, hook lifecycle).

Async code (`await`) is sequential in the source's single logical task, so
promise-returning collaborators (prefix providers, blacklist predicates,
`guild.me()`, hooks, the REST transport) are embedded as plain functions or
pre-resolved outcome values supplied as inputs.  JS `Error` objects are
embedded as their message strings.  Outbound REST calls are recorded in an
explicit call list rather than performed.
-/

namespace Harmony

/-! ## Basic JS-flavoured helpers -/

/-- A TS `string | string[]` union value. -/
inductive StrOrArr where
  | s (v : String)
  | arr (v : List String)
deriving DecidableEq

/-- Normalisation `typeof v === 'string' ? [v] : v` used throughout the source. -/
def StrOrArr.toList : StrOrArr → List String
  | .s v => [v]
  | .arr v => v

/-- A JS spread `...v` of a `string | string[]` value at an argument position:
spreading a string yields its characters as one-character strings. -/
def StrOrArr.spreadArgs : StrOrArr → List String
  | .s v => v.toList.map (fun c => String.mk [c])
  | .arr v => v

/-- Insertion-ordered deduplication, the semantics of `[...new Set(xs)]`. -/
def jsSetList {α : Type} [DecidableEq α] (xs : List α) : List α :=
  xs.foldl (fun acc x => if x ∈ acc then acc else acc ++ [x]) []

/-- Semantics of `[...new Set(...ps, ...ap)]` in the source's permission merge:
the `Set` constructor consumes only its first argument as an iterable, so the
first string in the spread argument list is split into its (deduplicated)
characters and every other argument is ignored.  An empty argument list gives
`new Set()`, the empty set. -/
def jsSetMerge (ps : List String) (ap : StrOrArr) : List String :=
  match ps ++ ap.spreadArgs with
  | [] => []
  | s :: _ => jsSetList (s.toList.map (fun c => String.mk [c]))

/-- JS `String.prototype.startsWith`, embedded on the character-list model. -/
def jsStartsWith (s pre : String) : Bool :=
  pre.toList.isPrefixOf s.toList

/-! ## Interaction data model (src/unnamed/part_000) -/

/-- Embed payloads are opaque for this development; only their count matters. -/
structure EmbedObj where
  tag : Nat := 0
deriving DecidableEq

/-- Modelled from the spec: `InteractionResponseType` lives in
`types/slash.ts`, which is absent from `src/`; the constructors are those the
source uses. -/
inductive InteractionResponseType where
  | PONG
  | ACKNOWLEDGE
  | CHANNEL_MESSAGE
  | CHANNEL_MESSAGE_WITH_SOURCE
  | ACK_WITH_SOURCE
deriving DecidableEq

/-- Modelled from the spec: `InteractionResponseFlags.EPHEMERAL` (the
ephemeral bit) from the absent `types/slash.ts`. -/
def EPHEMERAL_FLAG : Nat := 64

/-- A TS `number | InteractionResponseFlags[]` union for the `flags` field. -/
inductive NumOrArr where
  | num (n : Nat)
  | arr (l : List Nat)
deriving DecidableEq

/-- Argument of `Interaction.respond` (interface `InteractionResponse`). -/
structure InteractionResponse where
  type : Option InteractionResponseType := none
  temp : Option Bool := none
  ephemeral : Option Bool := none
  content : Option String := none
  embeds : Option (List EmbedObj) := none
  tts : Option Bool := none
  flags : Option NumOrArr := none
  allowedMentions : Option String := none
  withSource : Option Bool := none

/-- Inner `data` object of the interaction-callback wire payload. -/
structure ResponseData where
  content : String
  embeds : Option (List EmbedObj)
  tts : Bool
  flags : Nat
  allowedMentions : Option String

/-- Wire payload posted to the interaction-callback endpoint. -/
structure InteractionResponsePayload where
  type : InteractionResponseType
  data : Option ResponseData

/-- Slash-command option kinds (`SlashCommandOptionType`); modelled from the
spec since `types/slash.ts` is absent from `src/`. -/
inductive SlashCommandOptionType where
  | SUB_COMMAND
  | SUB_COMMAND_GROUP
  | STRING
  | INTEGER
  | BOOLEAN
  | USER
  | CHANNEL
  | ROLE
deriving DecidableEq

/-- Raw option value carried on the wire (string, number or boolean). -/
inductive OptionValue where
  | str (s : String)
  | num (n : Int)
  | bool (b : Bool)
deriving DecidableEq

/-- JS property-key coercion of a raw option value, used to index the
resolved-entity dictionaries. -/
def OptionValue.key : OptionValue → String
  | .str s => s
  | .num n => toString n
  | .bool b => toString b

/-- One entry of `interaction.data.options`. -/
structure InteractionApplicationCommandOption where
  name : String
  type : SlashCommandOptionType
  value : Option OptionValue := none
deriving DecidableEq

structure InteractionApplicationCommandData where
  name : String
  options : Option (List InteractionApplicationCommandOption) := none
deriving DecidableEq

structure InteractionUser where
  id : String
deriving DecidableEq

structure MemberObj where
  id : String
deriving DecidableEq

structure RoleObj where
  id : String
deriving DecidableEq

structure InteractionChannel where
  id : String
deriving DecidableEq

/-- `InteractionApplicationCommandResolved`: four dictionaries keyed by
platform id, embedded as partial functions. -/
structure InteractionApplicationCommandResolved where
  users : String → Option InteractionUser
  members : String → Option MemberObj
  channels : String → Option InteractionChannel
  roles : String → Option RoleObj

def emptyResolved : InteractionApplicationCommandResolved :=
  ⟨fun _ => none, fun _ => none, fun _ => none, fun _ => none⟩

/-- The `Interaction` class state relevant to this development. -/
structure Interaction where
  id : String := ""
  token : String := ""
  responded : Bool := false
  data : Option InteractionApplicationCommandData := none
  resolved : InteractionApplicationCommandResolved := emptyResolved

/-- Getter `Interaction.options`: `this.data?.options ?? []`. -/
def Interaction.options (i : Interaction) : List InteractionApplicationCommandOption :=
  match i.data with
  | some d => d.options.getD []
  | none => []

/-- Result of `Interaction.option` seen from the caller: JS `undefined`, a
resolved entity, or the raw value. -/
inductive OptionReturn where
  | undef
  | userEnt (u : InteractionUser)
  | roleEnt (r : RoleObj)
  | channelEnt (c : InteractionChannel)
  | raw (v : OptionValue)
deriving DecidableEq

/-- `Interaction.option(name)` (part_000 lines 146–156). -/
def Interaction.option (i : Interaction) (name : String) : OptionReturn :=
  match i.options.find? (fun e => e.name == name) with
  | none => .undef
  | some op =>
    match op.value with
    | none => .undef
    | some v =>
      if op.type = .USER then
        match i.resolved.users v.key with
        | some u => .userEnt u
        | none => .undef
      else if op.type = .ROLE then
        match i.resolved.roles v.key with
        | some r => .roleEnt r
        | none => .undef
      else if op.type = .CHANNEL then
        match i.resolved.channels v.key with
        | some c => .channelEnt c
        | none => .undef
      else .raw v

/-- Outcome of a `respond` call: the REST calls issued, the error propagated
to the caller (if any), and the new value of the `responded` flag. -/
structure RespondOutcome where
  calls : List InteractionResponsePayload
  threw : Option String
  responded : Bool

/-- Flag bitmask of `respond` (part_000 lines 161–168). -/
def respondFlags (d : InteractionResponse) : Nat :=
  let flags := 0
  let flags := if d.ephemeral = some true ∨ d.temp = some true
    then flags ||| EPHEMERAL_FLAG else flags
  match d.flags with
  | some (.num n) => flags ||| n
  | some (.arr l) => l.foldl (fun p a => p ||| a) flags
  | none => flags

/-- Wire payload built by `respond` (part_000 lines 169–187). -/
def respondPayload (d : InteractionResponse) : InteractionResponsePayload :=
  { type :=
      d.type.getD
        (if d.withSource = some false then .CHANNEL_MESSAGE
         else .CHANNEL_MESSAGE_WITH_SOURCE)
    data :=
      if d.type = none ∨ d.type = some .CHANNEL_MESSAGE_WITH_SOURCE ∨
          d.type = some .CHANNEL_MESSAGE then
        some { content := d.content.getD ""
               embeds := d.embeds
               tts := d.tts.getD false
               flags := respondFlags d
               allowedMentions := d.allowedMentions }
      else none }

/-- `Interaction.respond` (part_000 lines 159–196).  `postResult` is the
pre-resolved outcome of the REST `post`; the assignment `responded = true`
happens only after a successful post. -/
def Interaction.respond (i : Interaction) (d : InteractionResponse)
    (postResult : Except String Unit) : RespondOutcome :=
  if i.responded then
    ⟨[], some "Already responded to Interaction", i.responded⟩
  else
    let payload := respondPayload d
    match postResult with
    | .error e => ⟨[payload], some e, i.responded⟩
    | .ok _ => ⟨[payload], none, true⟩

/-! ## Interaction.send (follow-up messages) -/

/-- `WebhookMessageOptions` fields read by `send`. -/
structure WebhookMessageOptions where
  content : Option String := none
  embed : Option EmbedObj := none
  embeds : Option (List EmbedObj) := none
  file : Option String := none
  tts : Option Bool := none
  allowedMentions : Option String := none
  name : Option String := none
  avatar : Option String := none
deriving DecidableEq

/-- `AllWebhookMessageOptions` (`string | WebhookMessageOptions`), together
with the dynamically allowed bare `Embed` argument the source tests with
`instanceof Embed`. -/
inductive AllWebhookMessageOptions where
  | str (s : String)
  | opts (o : WebhookMessageOptions)
  | embedObj (e : EmbedObj)
deriving DecidableEq

/-- Follow-up wire payload built by `send`. -/
structure FollowupPayload where
  content : Option String
  embeds : Option (List EmbedObj)
  file : Option String
  tts : Option Bool
  allowedMentions : Option String
  username : Option String := none
  avatar : Option String := none
deriving DecidableEq

structure SendOutcome where
  calls : List FollowupPayload
  threw : Option String
deriving DecidableEq

/-- Normalisation at the top of `send` (part_000 lines 280–283): an object
`text` argument is shifted into the `option` slot. -/
def sendNormalize (text opt : Option AllWebhookMessageOptions) :
    Option String × Option AllWebhookMessageOptions :=
  match text with
  | some (.str s) => (some s, opt)
  | some o => (none, some o)
  | none => (none, opt)

/-- The `option instanceof Embed` rewrite plus the
`option as WebhookMessageOptions` casts of `send`: a bare embed becomes
`{ embeds: [e] }`, a string has none of the read properties. -/
def sendOptObj : Option AllWebhookMessageOptions → Option WebhookMessageOptions
  | some (.embedObj e) => some { embeds := some [e] }
  | some (.opts o) => some o
  | some (.str _) => some {}
  | none => none

/-- Embeds slot of the `send` payload (part_000 lines 296–301). -/
def sendEmbeds : Option WebhookMessageOptions → Option (List EmbedObj)
  | some o =>
    match o.embed with
    | some e => some [e]
    | none => o.embeds
  | none => none

/-- The full follow-up payload `send` posts (part_000 lines 294–313). -/
def sendPayloadOf (text opt : Option AllWebhookMessageOptions) : FollowupPayload :=
  let n := sendNormalize text opt
  let o := sendOptObj n.2
  { content := n.1
    embeds := sendEmbeds o
    file := (o.bind fun x => x.file)
    tts := (o.bind fun x => x.tts)
    allowedMentions := (o.bind fun x => x.allowedMentions)
    username := (o.bind fun x => x.name)
    avatar := (o.bind fun x => x.avatar) }

/-- The guard `payload.embeds !== undefined && payload.embeds.length > 10`. -/
def tooManyEmbeds : Option (List EmbedObj) → Bool
  | some es => es.length > 10
  | none => false

/-- `Interaction.send` (part_000 lines 276–334).  The `responded` flag of the
interaction is never consulted. -/
def Interaction.send (i : Interaction) (text opt : Option AllWebhookMessageOptions) :
    SendOutcome :=
  let _ := i
  let n := sendNormalize text opt
  if n.1 = none ∧ n.2 = none then
    ⟨[], some "Either text or option is necessary."⟩
  else
    let payload := sendPayloadOf text opt
    if tooManyEmbeds payload.embeds then
      ⟨[], some "Cannot send more than 10 embeds through Interaction Webhook"⟩
    else
      ⟨[payload], none⟩

/-! ## CommandClient data model (src/src/models/commandClient.ts)

`Command`, `Category` and `parseCommand` live in `models/command.ts`, which is
absent from `src/`; their data shape is modelled from the spec (§3, §4.2:
"same flag/permission/whitelist shape as Command") and from the fields
`processMessage` reads.  The three hook functions are embedded as the
pre-resolved outcome of calling them on this invocation's context. -/

/-- Required-argument policy: TS `boolean | number`. -/
inductive ArgsReq where
  | bool (b : Bool)
  | num (n : Nat)
deriving DecidableEq

/-- Modelled from the spec: the `Command` data shape of `models/command.ts`
(absent from `src/`), restricted to the fields `processMessage` reads, with
hook outcomes pre-resolved. -/
structure Command where
  name : String := ""
  args : Option ArgsReq := none
  ownerOnly : Option Bool := none
  guildOnly : Option Bool := none
  dmOnly : Option Bool := none
  nsfw : Option Bool := none
  permissions : Option StrOrArr := none
  botPermissions : Option StrOrArr := none
  userPermissions : Option StrOrArr := none
  whitelistedGuilds : Option (List String) := none
  whitelistedChannels : Option (List String) := none
  whitelistedUsers : Option (List String) := none
  category : Option String := none
  beforeResult : Except String Bool := .ok true
  executeResult : Except String Unit := .ok ()
  afterResult : Except String Unit := .ok ()

/-- Modelled from the spec: the `Category` data shape (same flag / permission
/ whitelist shape as `Command`, acting as a default). -/
structure Category where
  name : String := ""
  ownerOnly : Option Bool := none
  guildOnly : Option Bool := none
  dmOnly : Option Bool := none
  nsfw : Option Bool := none
  permissions : Option StrOrArr := none
  botPermissions : Option StrOrArr := none
  userPermissions : Option StrOrArr := none
  whitelistedGuilds : Option (List String) := none
  whitelistedChannels : Option (List String) := none
  whitelistedUsers : Option (List String) := none

/-- Result of `parseCommand`: command name, split argument list, raw
argument string. -/
structure ParsedCommand where
  name : String
  args : List String := []
  argString : String := ""
deriving DecidableEq

/-- The fields of the inbound `Message` that `processMessage` reads.
`memberPerms` is `msg.member?.permissions.has`, `none` when there is no
member object. -/
structure Msg where
  content : String := ""
  authorId : String := ""
  authorBot : Bool := false
  channelId : String := ""
  channelNsfw : Bool := false
  guildId : Option String := none
  memberPerms : Option (String → Bool) := none

/-- `CommandClientOptions` state of the client, with the async prefix
providers and blacklist predicates embedded as plain functions (they are
awaited one at a time).  `userMention` / `nickMention` are the two literal
mention forms of the logged-in client user. -/
structure CommandClientConfig where
  globalPfx : StrOrArr := .s "!"
  mentionPfx : Bool := false
  getUserPfx : String → Option StrOrArr := fun _ => none
  getGuildPfx : String → Option StrOrArr := fun _ => none
  isUserBlacklisted : String → Bool := fun _ => false
  isChannelBlacklisted : String → Bool := fun _ => false
  isGuildBlacklisted : String → Bool := fun _ => false
  owners : List String := []
  allowBots : Bool := false
  allowDMs : Bool := true
  userMention : String := "<@0>"
  nickMention : String := "<@!0>"

/-- Per-invocation collaborators of `processMessage`: `parseCommand` (of the
chosen prefix), `commands.fetch`, `categories.get`, and
`(await msg.guild.me()).permissions.has`. -/
structure DispatchEnv where
  parseCmd : String → Option ParsedCommand := fun _ => none
  fetchCmd : ParsedCommand → Option Command := fun _ => none
  getCategory : String → Option Category := fun _ => none
  botHas : String → Bool := fun _ => true

/-- The `CommandContext` literal built in `processMessage`, with the object
references replaced by their ids. -/
structure CommandContext where
  name : String
  pfx : String
  args : List String
  argString : String
  authorId : String
  channelId : String
  guildId : Option String
  command : Command

/-- Events `processMessage` emits, with the payloads they carry. -/
inductive Event where
  | commandOwnerOnly (ctx : CommandContext)
  | commandGuildOnly (ctx : CommandContext)
  | commandDmOnly (ctx : CommandContext)
  | commandNSFW (ctx : CommandContext)
  | commandBotMissingPermissions (ctx : CommandContext) (missing : List String)
  | commandUserMissingPermissions (ctx : CommandContext) (missing : List String)
  | commandMissingArgs (ctx : CommandContext)
  | commandUsed (ctx : CommandContext)
  | commandError (ctx : CommandContext) (e : String)

/-- Observable outcome of one `processMessage` run: the events emitted in
order, and which hooks were invoked.  `processMessage` is a total function of
its inputs, so no exception ever escapes to its caller. -/
structure ProcResult where
  events : List Event
  beforeRan : Bool
  executeRan : Bool
  afterRan : Bool

/-- The empty (silent-drop) outcome. -/
def silentDrop : ProcResult := ⟨[], false, false, false⟩

/-! ## Prefix resolution (commandClient.ts lines 149–187) -/

/-- Candidate prefix list: global prefixes, then user-scoped, then (in a
guild) guild-scoped, deduplicated in insertion order (lines 149–167). -/
def buildCandidatePfxs (cfg : CommandClientConfig) (msg : Msg) : List String :=
  let p := cfg.globalPfx.toList
  let p := match cfg.getUserPfx msg.authorId with
    | some up => p ++ up.toList
    | none => p
  let p := match msg.guildId with
    | some gid =>
      match cfg.getGuildPfx gid with
      | some gp => p ++ gp.toList
      | none => p
    | none => p
  jsSetList p

/-- Stable insertion into a list descending by length: the new element jumps
ahead only of strictly shorter entries, as the source's stable
`sort((b, a) => a.length - b.length)` orders ties by original position. -/
def insertByLen (x : String) : List String → List String
  | [] => [x]
  | y :: ys => if y.length < x.length then x :: y :: ys else y :: insertByLen x ys

/-- Stable sort, descending by length (the JS `Array.prototype.sort` call of
line 173; JS sorts are stable). -/
def sortByLenDesc (xs : List String) : List String :=
  xs.foldl (fun acc x => insertByLen x acc) []

/-- `usedPrefix` selection (lines 171–173): filter the candidates the content
starts with, sort descending by length, take the first. -/
def usedPfxOf (cands : List String) (content : String) : Option String :=
  (sortByLenDesc (cands.filter (fun v => jsStartsWith content v))).head?

/-- Full prefix resolution including the mention-prefix fallback
(lines 169–187). -/
def resolveUsedPfx (cfg : CommandClientConfig) (msg : Msg) : Option String :=
  match usedPfxOf (buildCandidatePfxs cfg msg) msg.content with
  | some p => some p
  | none =>
    if cfg.mentionPfx then
      if jsStartsWith msg.content cfg.userMention then some cfg.userMention
      else if jsStartsWith msg.content cfg.nickMention then some cfg.nickMention
      else none
    else none

/-! ## Silent gates: bot filter, blacklists, command resolution, whitelists
(commandClient.ts lines 130–239) -/

/-- Guild-whitelist veto (lines 201–213): the Command's own whitelist, when
defined, is authoritative; otherwise the Category's applies; both only in a
guild. -/
def guildWhitelistBlocks (cmd : Command) (cat : Option Category) (msg : Msg) : Bool :=
  match msg.guildId with
  | none => false
  | some gid =>
    match cmd.whitelistedGuilds with
    | none =>
      match cat.bind (fun c => c.whitelistedGuilds) with
      | some wg => !wg.contains gid
      | none => false
    | some wg => !wg.contains gid

/-- Channel-whitelist veto (lines 216–226). -/
def channelWhitelistBlocks (cmd : Command) (cat : Option Category) (msg : Msg) : Bool :=
  match cmd.whitelistedChannels with
  | none =>
    match cat.bind (fun c => c.whitelistedChannels) with
    | some wc => !wc.contains msg.channelId
    | none => false
  | some wc => !wc.contains msg.channelId

/-- User-whitelist veto (lines 229–239). -/
def userWhitelistBlocks (cmd : Command) (cat : Option Category) (msg : Msg) : Bool :=
  match cmd.whitelistedUsers with
  | none =>
    match cat.bind (fun c => c.whitelistedUsers) with
    | some wu => !wu.contains msg.authorId
    | none => false
  | some wu => !wu.contains msg.authorId

/-- All silent stages of `processMessage` (lines 130–239): bot filter,
blacklists, prefix resolution, `parseCommand`, command lookup, category
lookup, whitelists.  `none` is a silent drop; `some` carries the used prefix,
the parse result, the command and its category. -/
def resolveCommand (cfg : CommandClientConfig) (env : DispatchEnv) (msg : Msg) :
    Option (String × ParsedCommand × Command × Option Category) :=
  if !cfg.allowBots && msg.authorBot then none
  else if cfg.isUserBlacklisted msg.authorId then none
  else if cfg.isChannelBlacklisted msg.channelId then none
  else if (match msg.guildId with
           | some gid => cfg.isGuildBlacklisted gid
           | none => false) then none
  else
    match resolveUsedPfx cfg msg with
    | none => none
    | some upfx =>
      match env.parseCmd upfx with
      | none => none
      | some parsed =>
        match env.fetchCmd parsed with
        | none => none
        | some cmd =>
          let cat := match cmd.category with
            | some c => env.getCategory c
            | none => none
          if guildWhitelistBlocks cmd cat msg then none
          else if channelWhitelistBlocks cmd cat msg then none
          else if userWhitelistBlocks cmd cat msg then none
          else some (upfx, parsed, cmd, cat)

/-- The `CommandContext` literal of lines 241–252. -/
def mkCtx (msg : Msg) (parsed : ParsedCommand) (cmd : Command) (upfx : String) :
    CommandContext :=
  { name := parsed.name
    pfx := upfx
    args := parsed.args
    argString := parsed.argString
    authorId := msg.authorId
    channelId := msg.channelId
    guildId := msg.guildId
    command := cmd }

/-! ## Diagnostic gates: scope flags, permissions, argument arity
(commandClient.ts lines 254–359) -/

/-- The flag-inheritance expression
`command.X !== undefined || category === undefined ? command.X : category.X`
used for ownerOnly / guildOnly / dmOnly. -/
def effectiveFlag (own : Option Bool) (cat : Option Category)
    (sel : Category → Option Bool) : Option Bool :=
  if own.isSome || cat.isNone then own else cat.bind sel

/-- Owner-only veto (lines 256–262). -/
def ownerBlocks (cfg : CommandClientConfig) (cmd : Command) (cat : Option Category)
    (msg : Msg) : Bool :=
  (effectiveFlag cmd.ownerOnly cat (fun c => c.ownerOnly) == some true) &&
    !(cfg.owners.contains msg.authorId)

/-- Guild-only veto (lines 264–271). -/
def guildOnlyBlocks (cmd : Command) (cat : Option Category) (msg : Msg) : Bool :=
  (effectiveFlag cmd.guildOnly cat (fun c => c.guildOnly) == some true) &&
    msg.guildId.isNone

/-- DM-only veto (lines 273–280). -/
def dmOnlyBlocks (cmd : Command) (cat : Option Category) (msg : Msg) : Bool :=
  (effectiveFlag cmd.dmOnly cat (fun c => c.dmOnly) == some true) &&
    msg.guildId.isSome

/-- NSFW veto (lines 282–287): only the Command's own `nsfw` flag is
consulted, and the veto also fires outside a guild. -/
def nsfwBlocks (cmd : Command) (msg : Msg) : Bool :=
  (cmd.nsfw == some true) && (msg.guildId.isNone || !msg.channelNsfw)

/-- The `allPermissions` value of lines 289–292:
`command.permissions !== undefined ? command.permissions : category?.permissions`. -/
def allPermissionsOf (cmd : Command) (cat : Option Category) : Option StrOrArr :=
  match cmd.permissions with
  | some p => some p
  | none => cat.bind (fun c => c.permissions)

/-- Bot-permission stage (lines 294–321): `some missing` when the stage vetoes
with that (nonempty) missing list, `none` when it passes or is skipped.  Note
that both the trigger condition and the fallback use `category?.permissions`
(not a category-level bot-permission field), and that the merge with
`allPermissions` goes through `jsSetMerge`. -/
def botPermsMissing (env : DispatchEnv) (cmd : Command) (cat : Option Category)
    (msg : Msg) : Option (List String) :=
  if (cmd.botPermissions.isSome || (cat.bind (fun c => c.permissions)).isSome) &&
      msg.guildId.isSome then
    match (match cmd.botPermissions with
           | none => cat.bind (fun c => c.permissions)
           | some p => some p) with
    | some perms =>
      let ps := perms.toList
      let ps := match allPermissionsOf cmd cat with
        | some ap => jsSetMerge ps ap
        | none => ps
      let missing := ps.filter (fun p => !env.botHas p)
      if missing.isEmpty then none else some missing
    | none => none
  else none

/-- `msg.member?.permissions.has(perm)` compared with `=== true`. -/
def memberHasPerm (msg : Msg) (p : String) : Bool :=
  match msg.memberPerms with
  | some h => h p
  | none => false

/-- User-permission stage (lines 323–349), same structure as the bot stage
but keyed on `userPermissions`. -/
def userPermsMissing (cmd : Command) (cat : Option Category) (msg : Msg) :
    Option (List String) :=
  if (cmd.userPermissions.isSome || (cat.bind (fun c => c.userPermissions)).isSome) &&
      msg.guildId.isSome then
    match (match cmd.userPermissions with
           | some p => some p
           | none => cat.bind (fun c => c.userPermissions)) with
    | some perms =>
      let ps := perms.toList
      let ps := match allPermissionsOf cmd cat with
        | some ap => jsSetMerge ps ap
        | none => ps
      let missing := ps.filter (fun p => !memberHasPerm msg p)
      if missing.isEmpty then none else some missing
    | none => none
  else none

/-- Outcome of the diagnostic gate chain: `.drop evs` ends processing after
emitting `evs`; `.go evs` proceeds to the hooks with `evs` already emitted
(only the non-fatal numeric missing-args notice reaches `.go` with an
event). -/
inductive GateStep where
  | drop (evs : List Event)
  | go (evs : List Event)

/-- The diagnostic gate chain of lines 254–359: scope flags, bot and user
permissions, argument arity.  The boolean arity violation `return`s (fatal);
the numeric one emits and falls through (non-fatal). -/
def gateChecks (cfg : CommandClientConfig) (env : DispatchEnv) (msg : Msg)
    (cmd : Command) (cat : Option Category) (ctx : CommandContext)
    (args : List String) : GateStep :=
  if ownerBlocks cfg cmd cat msg then .drop [.commandOwnerOnly ctx]
  else if guildOnlyBlocks cmd cat msg then .drop [.commandGuildOnly ctx]
  else if dmOnlyBlocks cmd cat msg then .drop [.commandDmOnly ctx]
  else if nsfwBlocks cmd msg then .drop [.commandNSFW ctx]
  else
    match botPermsMissing env cmd cat msg with
    | some missing => .drop [.commandBotMissingPermissions ctx missing]
    | none =>
      match userPermsMissing cmd cat msg with
      | some missing => .drop [.commandUserMissingPermissions ctx missing]
      | none =>
        match cmd.args with
        | some (.bool _) =>
          if args.length = 0 then .drop [.commandMissingArgs ctx] else .go []
        | some (.num n) =>
          if args.length < n then .go [.commandMissingArgs ctx] else .go []
        | none => .go []

/-! ## Hook lifecycle (commandClient.ts lines 361–371) -/

/-- The `try { commandUsed; before; execute; after } catch { commandError }`
block: a `false` return from the before-hook aborts silently; any hook
exception is caught and surfaces as a single `commandError` event. -/
def runHooks (evs : List Event) (ctx : CommandContext) (cmd : Command) : ProcResult :=
  let evs := evs ++ [.commandUsed ctx]
  match cmd.beforeResult with
  | .error e => ⟨evs ++ [.commandError ctx e], true, false, false⟩
  | .ok false => ⟨evs, true, false, false⟩
  | .ok true =>
    match cmd.executeResult with
    | .error e => ⟨evs ++ [.commandError ctx e], true, true, false⟩
    | .ok _ =>
      match cmd.afterResult with
      | .error e => ⟨evs ++ [.commandError ctx e], true, true, true⟩
      | .ok _ => ⟨evs, true, true, true⟩

/-- Steps of `processMessage` from the `CommandContext` literal on
(lines 241–371). -/
def dispatchCommand (cfg : CommandClientConfig) (env : DispatchEnv) (msg : Msg)
    (cmd : Command) (cat : Option Category) (parsed : ParsedCommand)
    (upfx : String) : ProcResult :=
  let ctx := mkCtx msg parsed cmd upfx
  match gateChecks cfg env msg cmd cat ctx parsed.args with
  | .drop evs => ⟨evs, false, false, false⟩
  | .go evs => runHooks evs ctx cmd

/-- `CommandClient.processMessage` (lines 129–372), as a total function from
the message and the pre-resolved collaborator outcomes to the observable
trace. -/
def processMessage (cfg : CommandClientConfig) (env : DispatchEnv) (msg : Msg) :
    ProcResult :=
  match resolveCommand cfg env msg with
  | none => silentDrop
  | some (upfx, parsed, cmd, cat) => dispatchCommand cfg env msg cmd cat parsed upfx

/-! ## Event classifiers -/

/-- Recogniser for `commandError` events. -/
def Event.isCommandError : Event → Bool
  | .commandError _ _ => true
  | _ => false

/-- Recogniser for `commandNSFW` events. -/
def Event.isNSFW : Event → Bool
  | .commandNSFW _ => true
  | _ => false

/-- Recogniser for `commandMissingArgs` events. -/
def Event.isMissingArgs : Event → Bool
  | .commandMissingArgs _ => true
  | _ => false

/-! ## Concrete instances used by witnesses and counterexamples -/

/-- Command of the C3 failing input: declared bot permissions plus a
separately-tracked `permissions` value. -/
def c3cmd : Command :=
  { botPermissions := some (.arr ["BAN_MEMBERS"])
    permissions := some (.arr ["KICK_MEMBERS"]) }

/-- Command of the C3 spec example: bot permissions only. -/
def c3cmdOnly : Command := { botPermissions := some (.arr ["BAN_MEMBERS"]) }

def c3parsed : ParsedCommand := { name := "ban" }

def c3env : DispatchEnv :=
  { parseCmd := fun _ => some c3parsed
    fetchCmd := fun _ => some c3cmd
    botHas := fun _ => false }

def c3envOnly : DispatchEnv :=
  { parseCmd := fun _ => some c3parsed
    fetchCmd := fun _ => some c3cmdOnly
    botHas := fun _ => false }

def c3msg : Msg :=
  { content := "!ban", authorId := "u1", channelId := "c1", guildId := some "g1" }

def c3cfg : CommandClientConfig := {}

/-- NSFW command of the C4 counterexample, invoked in a DM. -/
def c4cmd : Command := { nsfw := some true }

def c4parsed : ParsedCommand := { name := "lewd" }

def c4env : DispatchEnv :=
  { parseCmd := fun _ => some c4parsed, fetchCmd := fun _ => some c4cmd }

def c4msg : Msg := { content := "!lewd", authorId := "u1", channelId := "c1" }

def c4cfg : CommandClientConfig := {}

/-- Command relying on its Category for the nsfw flag (second C4
counterexample input). -/
def c4cmdCat : Command := { category := some "cat" }

def c4cat : Category := { name := "cat", nsfw := some true }

def c4envCat : DispatchEnv :=
  { parseCmd := fun _ => some c4parsed
    fetchCmd := fun _ => some c4cmdCat
    getCategory := fun _ => some c4cat }

/-- Guild message in a channel not marked nsfw. -/
def c4msgGuild : Msg :=
  { content := "!lewd", authorId := "u1", channelId := "c1",
    channelNsfw := false, guildId := some "g1" }

/-- NSFW command invoked in a guild whose channel is not nsfw (C4 witness). -/
def c4wenv : DispatchEnv :=
  { parseCmd := fun _ => some c4parsed, fetchCmd := fun _ => some c4cmd }

/-- Command with a boolean argument requirement (C5 counterexample). -/
def c5cmd : Command := { args := some (.bool true) }

def c5parsed : ParsedCommand := { name := "need" }

def c5env : DispatchEnv :=
  { parseCmd := fun _ => some c5parsed, fetchCmd := fun _ => some c5cmd }

def c5msg : Msg := { content := "!need", authorId := "u1", channelId := "c1" }

def c5cfg : CommandClientConfig := {}

/-- Command with a numeric argument minimum of 2, one parsed argument
(C5 witness). -/
def c5wcmd : Command := { args := some (.num 2) }

def c5wparsed : ParsedCommand := { name := "need", args := ["a"], argString := "a" }

def c5wenv : DispatchEnv :=
  { parseCmd := fun _ => some c5wparsed, fetchCmd := fun _ => some c5wcmd }

/-- Command whose before-hook throws (C2 witness). -/
def c2cmd : Command := { beforeResult := .error "boom" }

def c2parsed : ParsedCommand := { name := "go" }

def c2env : DispatchEnv :=
  { parseCmd := fun _ => some c2parsed, fetchCmd := fun _ => some c2cmd }

def c2msg : Msg := { content := "!go", authorId := "u1", channelId := "c1" }

def c2cfg : CommandClientConfig := {}

/-- Prefix set of the C6 spec example. -/
def c6cfg : CommandClientConfig := { globalPfx := .arr ["!", "!!"] }

def c6msg : Msg := { content := "!!ping", authorId := "u1", channelId := "c1" }

/-- Configuration blacklisting every user (C7 witness). -/
def c7cfg : CommandClientConfig := { isUserBlacklisted := fun _ => true }

def c7msg : Msg := { content := "!ping", authorId := "u1", channelId := "c1" }

/-- Interaction of the C9 spec example: one `USER`-kind option named
`target` with raw value `"123"`, resolved-user table holding that key. -/
def i9 : Interaction :=
  { data := some
      { name := "cmd"
        options := some [{ name := "target", type := .USER, value := some (.str "123") }] }
    resolved :=
      { users := fun k => if k == "123" then some ⟨"u123"⟩ else none
        members := fun _ => none
        channels := fun _ => none
        roles := fun _ => none } }

/-! ## Helper lemmas -/

theorem mem_insertByLen {x a : String} {l : List String} :
    x ∈ insertByLen a l ↔ x = a ∨ x ∈ l := by
  induction l with
  | nil => simp [insertByLen]
  | cons y ys ih =>
    simp only [insertByLen]
    split
    · exact List.mem_cons
    · rw [List.mem_cons, ih, List.mem_cons]
      tauto

theorem insertByLen_pairwise {a : String} {l : List String}
    (h : l.Pairwise (fun x y => y.length ≤ x.length)) :
    (insertByLen a l).Pairwise (fun x y => y.length ≤ x.length) := by
  induction l with
  | nil => simp [insertByLen]
  | cons y ys ih =>
    rw [List.pairwise_cons] at h
    obtain ⟨hy, hys⟩ := h
    simp only [insertByLen]
    split
    · rename_i hlt
      refine List.Pairwise.cons ?_ (List.Pairwise.cons hy hys)
      intro z hz
      rcases List.mem_cons.mp hz with rfl | hz'
      · omega
      · have := hy z hz'
        omega
    · rename_i hnlt
      refine List.Pairwise.cons ?_ (ih hys)
      intro z hz
      rcases mem_insertByLen.mp hz with rfl | hz'
      · omega
      · exact hy z hz'

theorem mem_sortByLenDesc {x : String} {l : List String} :
    x ∈ sortByLenDesc l ↔ x ∈ l := by
  suffices h : ∀ acc : List String,
      (x ∈ l.foldl (fun acc y => insertByLen y acc) acc ↔ x ∈ acc ∨ x ∈ l) by
    simpa [sortByLenDesc] using h []
  induction l with
  | nil => intro acc; simp
  | cons y ys ih =>
    intro acc
    simp only [List.foldl_cons]
    rw [ih (insertByLen y acc)]
    simp [mem_insertByLen]
    tauto

theorem sortByLenDesc_pairwise (l : List String) :
    (sortByLenDesc l).Pairwise (fun x y => y.length ≤ x.length) := by
  suffices h : ∀ acc : List String,
      acc.Pairwise (fun x y => y.length ≤ x.length) →
      (l.foldl (fun acc y => insertByLen y acc) acc).Pairwise
        (fun x y => y.length ≤ x.length) by
    exact h [] (by simp)
  induction l with
  | nil => intro acc hacc; simpa using hacc
  | cons y ys ih => intro acc hacc; exact ih _ (insertByLen_pairwise hacc)

theorem gateChecks_go_evs {cfg : CommandClientConfig} {env : DispatchEnv} {msg : Msg}
    {cmd : Command} {cat : Option Category} {ctx : CommandContext}
    {args : List String} {evs : List Event}
    (h : gateChecks cfg env msg cmd cat ctx args = .go evs) :
    evs = [] ∨ evs = [.commandMissingArgs ctx] := by
  simp only [gateChecks] at h
  repeat' split at h
  all_goals
    first
      | exact GateStep.noConfusion h
      | (injection h with h; subst h; simp)

theorem runHooks_beforeRan (evs : List Event) (ctx : CommandContext) (cmd : Command) :
    (runHooks evs ctx cmd).beforeRan = true := by
  unfold runHooks
  rcases hb : cmd.beforeResult with e | b
  · rfl
  · cases b
    · rfl
    · rcases hx : cmd.executeResult with e | u
      · rfl
      · rcases ha : cmd.afterResult with e | u <;> rfl

theorem runHooks_countP (p : Event → Bool) (evs : List Event)
    (ctx : CommandContext) (cmd : Command)
    (hU : p (.commandUsed ctx) = false)
    (hE : ∀ e, p (.commandError ctx e) = false) :
    ((runHooks evs ctx cmd).events.countP p) = evs.countP p := by
  unfold runHooks
  rcases hb : cmd.beforeResult with e | b
  · simp [List.countP_append, List.countP_cons, hU, hE]
  · cases b
    · simp [List.countP_append, List.countP_cons, hU, hE]
    · rcases hx : cmd.executeResult with e | u
      · simp [List.countP_append, List.countP_cons, hU, hE]
      · rcases ha : cmd.afterResult with e | u <;>
          simp [List.countP_append, List.countP_cons, hU, hE]

theorem runHooks_events_head (x : Event) (evs : List Event) (ctx : CommandContext)
    (cmd : Command) :
    (runHooks (x :: evs) ctx cmd).events.head? = some x := by
  unfold runHooks
  rcases hb : cmd.beforeResult with e | b
  · rfl
  · cases b
    · rfl
    · rcases hx : cmd.executeResult with e | u
      · rfl
      · rcases ha : cmd.afterResult with e | u <;> rfl

/-! ## Claim theorems -/

/-- C1: on an Interaction whose `responded` flag is false, `respond` issues
exactly one outbound call and (on a successful post) sets `responded` to
true without throwing; on an Interaction whose flag is already true,
`respond` fails with the illegal-state error "Already responded to
Interaction" and performs no outbound call, whatever the transport would
have answered — so `responded` transitions false→true at most once through
`respond`. -/
theorem c1_respond_transitions (i : Interaction) (d : InteractionResponse)
    (post : Except String Unit) :
    ((({ i with responded := false } : Interaction).respond d (.ok ())).calls.length = 1 ∧
     (({ i with responded := false } : Interaction).respond d (.ok ())).responded = true ∧
     (({ i with responded := false } : Interaction).respond d (.ok ())).threw = none) ∧
    ((({ i with responded := true } : Interaction).respond d post).calls = [] ∧
     (({ i with responded := true } : Interaction).respond d post).threw =
       some "Already responded to Interaction" ∧
     (({ i with responded := true } : Interaction).respond d post).responded = true) :=
  ⟨⟨rfl, rfl, rfl⟩, ⟨rfl, rfl, rfl⟩⟩

/-- C10: `responded` is assigned only after the outbound call returns
successfully — when the post throws, the call was issued but `responded`
stays false and the error propagates, and a later `respond` from that state
is still permitted (it succeeds as on a fresh Interaction). -/
theorem c10_respond_failure_keeps_state (i : Interaction)
    (d d₂ : InteractionResponse) (e : String) :
    ((({ i with responded := false } : Interaction).respond d (.error e)).threw = some e ∧
     (({ i with responded := false } : Interaction).respond d (.error e)).responded = false ∧
     (({ i with responded := false } : Interaction).respond d (.error e)).calls =
       [respondPayload d]) ∧
    ((({ i with responded := false } : Interaction).respond d₂ (.ok ())).responded = true ∧
     (({ i with responded := false } : Interaction).respond d₂ (.ok ())).threw = none) :=
  ⟨⟨rfl, rfl, rfl⟩, ⟨rfl, rfl⟩⟩

/-- C8: `send` never consults `responded`; it throws a validation error and
issues no outbound call exactly when (after the object-argument shift)
neither text nor options are supplied or the payload's embeds number more
than 10, and otherwise issues exactly one follow-up post. -/
theorem c8_send_validation (i : Interaction) (r : Bool)
    (text opt : Option AllWebhookMessageOptions) :
    (({ i with responded := r } : Interaction).send text opt = i.send text opt) ∧
    ((i.send text opt).threw ≠ none ↔
      ((sendNormalize text opt).1 = none ∧ (sendNormalize text opt).2 = none) ∨
        tooManyEmbeds (sendPayloadOf text opt).embeds = true) ∧
    ((i.send text opt).threw = none → (i.send text opt).calls = [sendPayloadOf text opt]) ∧
    ((i.send text opt).threw ≠ none → (i.send text opt).calls = []) := by
  have he : i.send text opt =
      if (sendNormalize text opt).1 = none ∧ (sendNormalize text opt).2 = none then
        ⟨[], some "Either text or option is necessary."⟩
      else if tooManyEmbeds (sendPayloadOf text opt).embeds then
        ⟨[], some "Cannot send more than 10 embeds through Interaction Webhook"⟩
      else ⟨[sendPayloadOf text opt], none⟩ := rfl
  refine ⟨rfl, ?_, ?_, ?_⟩ <;> rw [he] <;>
    by_cases h1 : (sendNormalize text opt).1 = none ∧ (sendNormalize text opt).2 = none <;>
    cases h2 : tooManyEmbeds (sendPayloadOf text opt).embeds <;>
    simp [h1, h2]

/-- C8 witness: `send` with neither text nor options, and `send` with 11
embeds, both fail with zero outbound calls; `send` with a bare text succeeds
with exactly one post. -/
theorem c8_send_validation_witness :
    (Interaction.send {} none none).calls = [] ∧
    (Interaction.send {}
      (some (.opts { embeds := some (List.replicate 11 ⟨0⟩) })) none).calls = [] ∧
    (Interaction.send {} (some (.str "hello")) none).calls =
      [sendPayloadOf (some (.str "hello")) none] :=
  ⟨(c8_send_validation {} false none none).2.2.2 (by decide),
   (c8_send_validation {} false
      (some (.opts { embeds := some (List.replicate 11 ⟨0⟩) })) none).2.2.2 (by decide),
   (c8_send_validation {} false (some (.str "hello")) none).2.2.1 (by decide)⟩

/-- C9: `option(name)` is a total function (it never throws): when no
top-level option bears the name, or the first match carries no value, it
returns the no-value result; when the first match's kind is user, role or
channel it returns the entry of the corresponding resolved-entity table
under the raw value used as key; for every other kind it returns the raw
value unchanged. -/
theorem c9_option_resolution (i : Interaction) (nm : String) :
    (i.options.find? (fun e => e.name == nm) = none → i.option nm = .undef) ∧
    (∀ op, i.options.find? (fun e => e.name == nm) = some op →
      (op.value = none → i.option nm = .undef) ∧
      (∀ v, op.value = some v →
        (op.type = .USER → i.option nm =
          (match i.resolved.users v.key with
           | some u => .userEnt u
           | none => .undef)) ∧
        (op.type = .ROLE → i.option nm =
          (match i.resolved.roles v.key with
           | some r => .roleEnt r
           | none => .undef)) ∧
        (op.type = .CHANNEL → i.option nm =
          (match i.resolved.channels v.key with
           | some c => .channelEnt c
           | none => .undef)) ∧
        (op.type ≠ .USER → op.type ≠ .ROLE → op.type ≠ .CHANNEL →
          i.option nm = .raw v))) := by
  constructor
  · intro h
    simp [Interaction.option, h]
  · intro op hop
    constructor
    · intro hv
      simp [Interaction.option, hop, hv]
    · intro v hv
      refine ⟨?_, ?_, ?_, ?_⟩
      · intro ht
        simp [Interaction.option, hop, hv, ht]
      · intro ht
        have hne : op.type ≠ .USER := by rw [ht]; decide
        simp [Interaction.option, hop, hv, ht, hne]
      · intro ht
        have hne : op.type ≠ .USER := by rw [ht]; decide
        have hne2 : op.type ≠ .ROLE := by rw [ht]; decide
        simp [Interaction.option, hop, hv, ht, hne, hne2]
      · intro h1 h2 h3
        simp [Interaction.option, hop, hv, h1, h2, h3]

/-- C9 witness: on the spec's example interaction, `option("target")` with
kind user and raw value "123" returns the resolved user keyed "123" (not the
string), and `option("missing")` returns the no-value result. -/
theorem c9_option_resolution_witness :
    i9.option "target" = .userEnt ⟨"u123"⟩ ∧ i9.option "missing" = .undef := by
  constructor
  · have h := (((c9_option_resolution i9 "target").2
      { name := "target", type := .USER, value := some (.str "123") } rfl).2
      (.str "123") rfl).1 rfl
    simpa using h
  · exact (c9_option_resolution i9 "missing").1 rfl

/-- C6: the prefix resolver, run on the deduplicated union of global,
user-scoped and guild-scoped prefixes, selects among the candidates the
message starts with one of maximal length; being a pure function of the
candidate set and the text, repeated runs on identical input make the same
choice. -/
theorem c6_longest_pfx_selected (cfg : CommandClientConfig) (msg : Msg) (p : String)
    (h : usedPfxOf (buildCandidatePfxs cfg msg) msg.content = some p) :
    p ∈ buildCandidatePfxs cfg msg ∧ jsStartsWith msg.content p = true ∧
      ∀ q ∈ buildCandidatePfxs cfg msg, jsStartsWith msg.content q = true →
        q.length ≤ p.length := by
  unfold usedPfxOf at h
  rcases hs : sortByLenDesc
      ((buildCandidatePfxs cfg msg).filter fun v => jsStartsWith msg.content v) with
    _ | ⟨q, t⟩
  · rw [hs] at h
    simp at h
  · rw [hs] at h
    simp only [List.head?_cons, Option.some.injEq] at h
    subst h
    have hmem : q ∈ (buildCandidatePfxs cfg msg).filter
        fun v => jsStartsWith msg.content v := by
      rw [← mem_sortByLenDesc, hs]
      exact List.mem_cons_self _ _
    have hpc := List.mem_filter.mp hmem
    refine ⟨hpc.1, hpc.2, ?_⟩
    intro q' hq' hsw
    have hqf : q' ∈ (buildCandidatePfxs cfg msg).filter
        fun v => jsStartsWith msg.content v := List.mem_filter.mpr ⟨hq', hsw⟩
    rw [← mem_sortByLenDesc, hs] at hqf
    rcases List.mem_cons.mp hqf with rfl | hqt
    · exact le_refl _
    · have hpw := sortByLenDesc_pairwise
        ((buildCandidatePfxs cfg msg).filter fun v => jsStartsWith msg.content v)
      rw [hs, List.pairwise_cons] at hpw
      exact hpw.1 q' hqt

/-- C6 witness: with prefixes ["!", "!!"] and message "!!ping" the resolver
returns "!!" (the longer match), a member of the candidate set that the
message starts with. -/
theorem c6_longest_pfx_selected_witness :
    usedPfxOf (buildCandidatePfxs c6cfg c6msg) "!!ping" = some "!!" ∧
    "!!" ∈ buildCandidatePfxs c6cfg c6msg ∧ jsStartsWith "!!ping" "!!" = true := by
  have hc := c6_longest_pfx_selected c6cfg c6msg "!!" (by decide)
  exact ⟨by decide, hc.1, hc.2.1⟩

/-- C7: a message whose author, channel or (in a guild) guild is
blacklisted produces the silent-drop outcome: zero emitted events of any
kind and zero hook invocations — and since `processMessage` issues outbound
calls only from hooks, zero outbound calls. -/
theorem c7_blacklist_silent (cfg : CommandClientConfig) (env : DispatchEnv) (msg : Msg)
    (h : cfg.isUserBlacklisted msg.authorId = true ∨
         cfg.isChannelBlacklisted msg.channelId = true ∨
         ∃ gid, msg.guildId = some gid ∧ cfg.isGuildBlacklisted gid = true) :
    processMessage cfg env msg = silentDrop := by
  have hrc : resolveCommand cfg env msg = none := by
    simp only [resolveCommand]
    rcases h with h | h | ⟨gid, hg, h⟩
    · simp [h]
    · simp [h]
    · simp [hg, h]
  simp [processMessage, hrc]

/-- C7 witness: with a user-blacklisting predicate, a message produces the
empty outcome. -/
theorem c7_blacklist_silent_witness :
    processMessage c7cfg {} c7msg = silentDrop :=
  c7_blacklist_silent c7cfg {} c7msg (Or.inl rfl)

/-- C2: when a dispatch reaches the hook stage and the before-hook or the
execute-hook raises, the exception is caught inside `processMessage`
(the embedding is a total function, so nothing propagates to the caller):
exactly one `commandError` event is emitted, carrying the dispatch context
and the exception, as the last event of the run, and the after-hook is never
invoked on that path. -/
theorem c2_hook_exception_contained (cfg : CommandClientConfig) (env : DispatchEnv)
    (msg : Msg) (upfx : String) (parsed : ParsedCommand) (cmd : Command)
    (cat : Option Category) (evs : List Event) (e : String)
    (hres : resolveCommand cfg env msg = some (upfx, parsed, cmd, cat))
    (hgo : gateChecks cfg env msg cmd cat (mkCtx msg parsed cmd upfx) parsed.args =
      .go evs)
    (hfail : cmd.beforeResult = .error e ∨
      (cmd.beforeResult = .ok true ∧ cmd.executeResult = .error e)) :
    (processMessage cfg env msg).events.countP Event.isCommandError = 1 ∧
    (processMessage cfg env msg).events.getLast? =
      some (.commandError (mkCtx msg parsed cmd upfx) e) ∧
    (processMessage cfg env msg).afterRan = false := by
  have hpm : processMessage cfg env msg =
      runHooks evs (mkCtx msg parsed cmd upfx) cmd := by
    simp only [processMessage, hres, dispatchCommand, hgo]
  rw [hpm]
  rcases gateChecks_go_evs hgo with rfl | rfl <;>
    rcases hfail with hb | ⟨hb, hx⟩
  · simp [runHooks, hb, Event.isCommandError, List.countP_cons]
  · simp [runHooks, hb, hx, Event.isCommandError, List.countP_cons]
  · simp [runHooks, hb, Event.isCommandError, List.countP_cons]
  · simp [runHooks, hb, hx, Event.isCommandError, List.countP_cons]

/-- C2 witness: a concrete invocation whose before-hook throws "boom" yields
exactly one commandError event, last in the trace, with no after-hook run. -/
theorem c2_hook_exception_contained_witness :
    (processMessage c2cfg c2env c2msg).events.countP Event.isCommandError = 1 ∧
    (processMessage c2cfg c2env c2msg).events.getLast? =
      some (.commandError (mkCtx c2msg c2parsed c2cmd "!") "boom") ∧
    (processMessage c2cfg c2env c2msg).afterRan = false :=
  c2_hook_exception_contained c2cfg c2env c2msg "!" c2parsed c2cmd none [] "boom"
    rfl rfl (Or.inl rfl)

/-- C3: evaluating `processMessage` at the claim's own example (bot
permissions ["BAN_MEMBERS"], no other permissions, bot lacking everything)
does give missing = ["BAN_MEMBERS"] with no hooks run; but as soon as the
separately-tracked `allPermissions` value is defined (here
permissions = ["KICK_MEMBERS"]), the `[...new Set(...permissions,
...allPermissions)]` merge collapses the effective set to the deduplicated
characters of the first permission name, so the emitted missing list is
["B","A","N","_","M","E","R","S"] instead of the claimed set union — the
code contradicts the documented union semantics. -/
theorem c3_botperm_merge_eval :
    ((processMessage c3cfg c3envOnly c3msg).events =
      [.commandBotMissingPermissions (mkCtx c3msg c3parsed c3cmdOnly "!")
        ["BAN_MEMBERS"]] ∧
     (processMessage c3cfg c3envOnly c3msg).beforeRan = false) ∧
    ((processMessage c3cfg c3env c3msg).events =
      [.commandBotMissingPermissions (mkCtx c3msg c3parsed c3cmd "!")
        ["B", "A", "N", "_", "M", "E", "R", "S"]] ∧
     (processMessage c3cfg c3env c3msg).beforeRan = false) :=
  ⟨⟨rfl, rfl⟩, ⟨rfl, rfl⟩⟩

/-- C4 counterexample: the claim fails on the code in both directions at
concrete inputs.  A command with its own nsfw flag, invoked outside any
guild, emits commandNSFW and drops (the claim says the check imposes no
constraint outside a guild); and a command whose Category carries
nsfw = true while the command itself declares nothing runs to completion in
a non-nsfw guild channel with no commandNSFW event (the claim says the
Category default applies). -/
theorem c4_nsfw_claim_counterexample :
    ((processMessage c4cfg c4env c4msg).events =
      [.commandNSFW (mkCtx c4msg c4parsed c4cmd "!")] ∧
     (processMessage c4cfg c4env c4msg).beforeRan = false ∧
     c4msg.guildId = none) ∧
    ((processMessage c4cfg c4envCat c4msgGuild).events =
      [.commandUsed (mkCtx c4msgGuild c4parsed c4cmdCat "!")] ∧
     (processMessage c4cfg c4envCat c4msgGuild).executeRan = true ∧
     c4cat.nsfw = some true ∧ c4cmdCat.nsfw = none ∧
     c4msgGuild.channelNsfw = false) :=
  ⟨⟨rfl, rfl, rfl⟩, ⟨rfl, rfl, rfl, rfl, rfl⟩⟩

/-- C4 as amended: only the Command's own nsfw flag is consulted (the
Category's is ignored), and the veto fires exactly when that flag is true
and the invocation is outside a guild or in a guild channel not marked
nsfw; when it fires, the commandNSFW diagnostic is the sole event and no
hook runs. -/
theorem c4_nsfw_command_only (cfg : CommandClientConfig) (env : DispatchEnv)
    (msg : Msg) (upfx : String) (parsed : ParsedCommand) (cmd : Command)
    (cat : Option Category)
    (hres : resolveCommand cfg env msg = some (upfx, parsed, cmd, cat))
    (hOwner : ownerBlocks cfg cmd cat msg = false)
    (hGuild : guildOnlyBlocks cmd cat msg = false)
    (hDm : dmOnlyBlocks cmd cat msg = false) :
    ((processMessage cfg env msg).events.countP Event.isNSFW =
      if nsfwBlocks cmd msg then 1 else 0) ∧
    (nsfwBlocks cmd msg = true →
      processMessage cfg env msg =
        ⟨[.commandNSFW (mkCtx msg parsed cmd upfx)], false, false, false⟩) := by
  have hpm : processMessage cfg env msg =
      dispatchCommand cfg env msg cmd cat parsed upfx := by
    simp only [processMessage, hres]
  rw [hpm]
  simp only [dispatchCommand, gateChecks, hOwner, hGuild, hDm,
    Bool.false_eq_true, if_false]
  cases hN : nsfwBlocks cmd msg
  · simp only [Bool.false_eq_true, if_false]
    constructor
    · rcases hBot : botPermsMissing env cmd cat msg with _ | m
      · rcases hUser : userPermsMissing cmd cat msg with _ | m'
        · rcases hargs : cmd.args with _ | ⟨b⟩ | n
          · simp [runHooks_countP Event.isNSFW _ _ _ rfl (fun _ => rfl)]
          · by_cases hz : parsed.args.length = 0 <;>
              simp [hz, Event.isNSFW, List.countP_cons,
                runHooks_countP Event.isNSFW _ _ _ rfl (fun _ => rfl)]
          · by_cases hz : parsed.args.length < n <;>
              simp [hz, Event.isNSFW, List.countP_cons,
                runHooks_countP Event.isNSFW _ _ _ rfl (fun _ => rfl)]
        · simp [Event.isNSFW, List.countP_cons]
      · simp [Event.isNSFW, List.countP_cons]
    · intro hcontra
      cases hcontra
  · simp [Event.isNSFW, List.countP_cons]

/-- C4 witness: a command with nsfw = true invoked in a guild whose channel
is not marked nsfw yields exactly the commandNSFW drop. -/
theorem c4_nsfw_command_only_witness :
    processMessage c4cfg c4wenv c4msgGuild =
      ⟨[.commandNSFW (mkCtx c4msgGuild c4parsed c4cmd "!")], false, false, false⟩ :=
  (c4_nsfw_command_only c4cfg c4wenv c4msgGuild "!" c4parsed c4cmd none
    rfl rfl rfl rfl).2 rfl

/-- C5 counterexample: a command with a boolean argument requirement and
zero parsed arguments emits commandMissingArgs and then stops — the hooks
never run, contradicting the claim that processing continues to the
before/execute hooks in the boolean case as well. -/
theorem c5_boolean_args_halts_counterexample :
    (processMessage c5cfg c5env c5msg).events =
      [.commandMissingArgs (mkCtx c5msg c5parsed c5cmd "!")] ∧
    (processMessage c5cfg c5env c5msg).beforeRan = false ∧
    c5cmd.args = some (.bool true) ∧ c5parsed.args = [] :=
  ⟨rfl, rfl, rfl, rfl⟩

/-- C5 as amended: an arity violation always emits the commandMissingArgs
diagnostic, but only the numeric case is non-fatal — with a numeric minimum
unmet the notice is emitted and processing continues to the hooks, while
with a boolean requirement and zero arguments the notice is emitted and
processing stops before the hooks. -/
theorem c5_missing_args_behavior (cfg : CommandClientConfig) (env : DispatchEnv)
    (msg : Msg) (upfx : String) (parsed : ParsedCommand) (cmd : Command)
    (cat : Option Category) (b : Bool) (n : Nat)
    (hres : resolveCommand cfg env msg = some (upfx, parsed, cmd, cat))
    (hOwner : ownerBlocks cfg cmd cat msg = false)
    (hGuild : guildOnlyBlocks cmd cat msg = false)
    (hDm : dmOnlyBlocks cmd cat msg = false)
    (hN : nsfwBlocks cmd msg = false)
    (hBot : botPermsMissing env cmd cat msg = none)
    (hUser : userPermsMissing cmd cat msg = none) :
    (cmd.args = some (.bool b) → parsed.args.length = 0 →
      processMessage cfg env msg =
        ⟨[.commandMissingArgs (mkCtx msg parsed cmd upfx)], false, false, false⟩) ∧
    (cmd.args = some (.num n) → parsed.args.length < n →
      (processMessage cfg env msg).beforeRan = true ∧
      (processMessage cfg env msg).events.countP Event.isMissingArgs = 1 ∧
      (processMessage cfg env msg).events.head? =
        some (.commandMissingArgs (mkCtx msg parsed cmd upfx))) := by
  have hpm : processMessage cfg env msg =
      dispatchCommand cfg env msg cmd cat parsed upfx := by
    simp only [processMessage, hres]
  rw [hpm]
  simp only [dispatchCommand, gateChecks, hOwner, hGuild, hDm, hN, hBot, hUser,
    Bool.false_eq_true, if_false]
  constructor
  · intro ha h0
    simp [ha, h0]
  · intro ha hlt
    simp only [ha, hlt, if_pos]
    refine ⟨runHooks_beforeRan _ _ _, ?_, ?_⟩
    · rw [runHooks_countP Event.isMissingArgs _ _ _ rfl (fun _ => rfl)]
      rfl
    · exact runHooks_events_head _ _ _ _

/-- C5 witness: a command with numeric minimum 2 invoked with one argument
emits the commandMissingArgs notice and still reaches the hooks. -/
theorem c5_missing_args_behavior_witness :
    (processMessage c5cfg c5wenv c5msg).beforeRan = true ∧
    (processMessage c5cfg c5wenv c5msg).events.countP Event.isMissingArgs = 1 ∧
    (processMessage c5cfg c5wenv c5msg).events.head? =
      some (.commandMissingArgs (mkCtx c5msg c5wparsed c5wcmd "!")) :=
  (c5_missing_args_behavior c5cfg c5wenv c5msg "!" c5wparsed c5wcmd none true 2
    rfl rfl rfl rfl rfl rfl rfl).2 rfl (by decide)

end Harmony
